import Mathlib

/-!
Verification of the moviego video-editing library core against its
natural-language specification.

The Go sources are shallowly embedded: Go machine integers are modelled as
`Nat`/`Int` with an explicit `% 2^32` (uint32) or `% 2^16` (uint16) where
wrap-around matters; Go `float64` quantities that only ever hold small exact
rationals in the verified paths are modelled as `Rat` (truncating
float-to-int conversions become truncated rational-to-integer conversions);
`time.Duration` is modelled as `Int` nanoseconds; fallible operations
return `Except`.
-/

namespace MovieGo

/-! ## Go uint32 arithmetic (pkg/compositing/compositing.go works in uint32) -/

/-- 2^32, the modulus of Go `uint32` arithmetic. -/
def U32 : Nat := 4294967296

/-- 2^16, the modulus of Go `uint16` arithmetic. -/
def U16 : Nat := 65536

/-- Go `uint32` multiplication (wraps modulo 2^32). -/
def mul32 (a b : Nat) : Nat := a * b % U32

/-- Go `uint32` addition (wraps modulo 2^32). -/
def add32 (a b : Nat) : Nat := (a + b) % U32

/-- Go `uint32` subtraction `a - b` for representatives below 2^32
    (wraps modulo 2^32). -/
def sub32 (a b : Nat) : Nat := (a + U32 - b % U32) % U32

/-! ## Blend modes (pkg/compositing/compositing.go) -/

/-- `CompositeMode` from compositing.go: the six blend modes. -/
inductive CompositeMode where
  | overlayMode
  | addMode
  | multiplyMode
  | screenMode
  | darkenMode
  | lightenMode
  deriving DecidableEq, Repr

/-- `CompositeVideoClip.blendOverlay` (compositing.go): all arithmetic is Go
    `uint32`; the division by 65535 is Go integer (truncated) division. -/
def blendOverlay (base overlay : Nat) : Nat :=
  if base < 32768 then
    mul32 (mul32 2 base) overlay / 65535
  else
    sub32 65535 (mul32 (mul32 2 (sub32 65535 base)) (sub32 65535 overlay) / 65535)

/-- `CompositeVideoClip.blendScreen` (compositing.go). -/
def blendScreen (base overlay : Nat) : Nat :=
  sub32 65535 (mul32 (sub32 65535 base) (sub32 65535 overlay) / 65535)

/-- `CompositeVideoClip.clamp` (compositing.go). -/
def clamp (value : Nat) : Nat :=
  if value > 65535 then 65535 else value

/-- `CompositeVideoClip.min` (compositing.go). -/
def cvcMin (a b : Nat) : Nat := if a < b then a else b

/-- `CompositeVideoClip.max` (compositing.go). -/
def cvcMax (a b : Nat) : Nat := if a > b then a else b

/-- A Go `color.Color` as seen through `Color.RGBA()`: four 16-bit
    (alpha-premultiplied) channels held in `uint32` variables. -/
structure Color16 where
  r : Nat
  g : Nat
  b : Nat
  a : Nat
  deriving DecidableEq, Repr

/-- The per-channel dispatch of `CompositeVideoClip.blendColors`
    (compositing.go): the Go `switch` computes each of r, g, b with the same
    mode-selected function.  The `default` arm of the Go switch (return the
    overlay channel) is unreachable for the six declared modes and therefore
    has no counterpart among the six constructors. -/
def blendChannel (mode : CompositeMode) (base overlay : Nat) : Nat :=
  match mode with
  | .overlayMode => blendOverlay base overlay
  | .addMode => clamp (add32 base overlay)
  | .multiplyMode => mul32 base overlay / 65535
  | .screenMode => blendScreen base overlay
  | .darkenMode => cvcMin base overlay
  | .lightenMode => cvcMax base overlay

/-- `CompositeVideoClip.blendColors` (compositing.go): reads both colors via
    `RGBA()` (the base alpha is discarded), blends each channel, and returns
    `color.RGBA64{R: uint16(r), G: uint16(g), B: uint16(b), A: uint16(a2)}` —
    the `uint16(.)` narrowing is `% 2^16`, and the result alpha is taken from
    the overlay color. -/
def blendColors (base overlay : Color16) (mode : CompositeMode) : Color16 :=
  { r := blendChannel mode base.r overlay.r % U16
    g := blendChannel mode base.g overlay.g % U16
    b := blendChannel mode base.b overlay.b % U16
    a := overlay.a % U16 }

/-- Modelled from the spec (§4.5 blend-mode table), for comparison with
    `blendChannel`: the spec formulas on the common 16-bit integer scale of
    the code, where `base < 0.5` reads as `base < 32768` (i.e.
    `base ≤ 32767`, the largest channel value whose normalization by 65535
    is below one half) and renormalization of products is truncated division
    by 65535. -/
def specBlendChannel (mode : CompositeMode) (base top : Nat) : Nat :=
  match mode with
  | .overlayMode =>
      if base < 32768 then 2 * base * top / 65535
      else 65535 - 2 * (65535 - base) * (65535 - top) / 65535
  | .addMode => min (base + top) 65535
  | .multiplyMode => base * top / 65535
  | .screenMode => 65535 - (65535 - base) * (65535 - top) / 65535
  | .darkenMode => min base top
  | .lightenMode => max base top

/-! ### Arithmetic facts about the uint32 blend kernels -/

theorem mod_U32_eq_self {a : Nat} (h : a < U32) : a % U32 = a :=
  Nat.mod_eq_of_lt h

theorem sub32_eq_sub {a b : Nat} (hb : b ≤ a) (ha : a < U32) :
    sub32 a b = a - b := by
  unfold sub32
  rw [Nat.mod_eq_of_lt (lt_of_le_of_lt hb ha)]
  have h1 : a + U32 - b = (a - b) + U32 := by omega
  rw [h1, Nat.add_mod_right, Nat.mod_eq_of_lt (by omega)]

theorem mul32_eq_mul {a b : Nat} (h : a * b < U32) : mul32 a b = a * b := by
  unfold mul32
  exact Nat.mod_eq_of_lt h

theorem add32_eq_add {a b : Nat} (h : a + b < U32) : add32 a b = a + b := by
  unfold add32
  exact Nat.mod_eq_of_lt h

theorem clamp_eq_min (v : Nat) : clamp v = min v 65535 := by
  unfold clamp
  split <;> omega

/-- The branch-1 overlay product never overflows uint32. -/
theorem overlay_prod1_lt {x y : Nat} (hx : x < 32768) (hy : y ≤ 65535) :
    2 * x * y < U32 := by
  have h1 : 2 * x ≤ 65534 := by omega
  have h2 : 2 * x * y ≤ 65534 * 65535 :=
    Nat.mul_le_mul h1 hy
  unfold U32
  omega

/-- The branch-2 overlay product never overflows uint32. -/
theorem overlay_prod2_lt {x y : Nat} (hx : 32768 ≤ x) (hx65 : x ≤ 65535)
    (hy : y ≤ 65535) : 2 * (65535 - x) * (65535 - y) < U32 := by
  have h1 : 2 * (65535 - x) ≤ 65534 := by omega
  have h2 : 2 * (65535 - x) * (65535 - y) ≤ 65534 * 65535 :=
    Nat.mul_le_mul h1 (by omega)
  unfold U32
  omega

/-- The screen product never overflows uint32. -/
theorem screen_prod_lt {x y : Nat} (hx : x ≤ 65535) (hy : y ≤ 65535) :
    (65535 - x) * (65535 - y) < U32 := by
  have h2 : (65535 - x) * (65535 - y) ≤ 65535 * 65535 :=
    Nat.mul_le_mul (by omega) (by omega)
  unfold U32
  omega

theorem blendOverlay_eq_spec {x y : Nat} (hx : x ≤ 65535) (hy : y ≤ 65535) :
    blendOverlay x y = specBlendChannel .overlayMode x y := by
  simp only [blendOverlay, specBlendChannel]
  by_cases hb : x < 32768
  · simp only [if_pos hb]
    rw [mul32_eq_mul (a := 2) (b := x) (by unfold U32; omega),
      mul32_eq_mul (overlay_prod1_lt hb hy)]
  · simp only [if_neg hb]
    push_neg at hb
    rw [sub32_eq_sub hx (by unfold U32; omega),
      sub32_eq_sub hy (by unfold U32; omega),
      mul32_eq_mul (a := 2) (b := 65535 - x) (by unfold U32; omega),
      mul32_eq_mul (overlay_prod2_lt hb hx hy)]
    have hd : 2 * (65535 - x) * (65535 - y) ≤ 65534 * 65535 :=
      Nat.mul_le_mul (by omega) (by omega)
    rw [sub32_eq_sub (by omega) (by unfold U32; omega)]

theorem blendOverlay_le {x y : Nat} (hx : x ≤ 65535) (hy : y ≤ 65535) :
    blendOverlay x y ≤ 65535 := by
  rw [blendOverlay_eq_spec hx hy]
  simp only [specBlendChannel]
  by_cases hb : x < 32768
  · simp only [if_pos hb]
    have h2 : 2 * x * y ≤ 65534 * 65535 :=
      Nat.mul_le_mul (by omega) hy
    omega
  · simp only [if_neg hb]
    omega

theorem blendScreen_eq_spec {x y : Nat} (hx : x ≤ 65535) (hy : y ≤ 65535) :
    blendScreen x y = specBlendChannel .screenMode x y := by
  simp only [blendScreen, specBlendChannel]
  rw [sub32_eq_sub hx (by unfold U32; omega),
    sub32_eq_sub hy (by unfold U32; omega),
    mul32_eq_mul (screen_prod_lt hx hy)]
  have h2 : (65535 - x) * (65535 - y) ≤ 65535 * 65535 :=
    Nat.mul_le_mul (by omega) (by omega)
  rw [sub32_eq_sub (by omega) (by unfold U32; omega)]

theorem blendScreen_le {x y : Nat} (hx : x ≤ 65535) (hy : y ≤ 65535) :
    blendScreen x y ≤ 65535 := by
  rw [blendScreen_eq_spec hx hy]
  simp only [specBlendChannel]
  omega

/-- Every blend channel agrees with the spec formula on 16-bit inputs. -/
theorem blendChannel_eq_spec (mode : CompositeMode) {x y : Nat}
    (hx : x ≤ 65535) (hy : y ≤ 65535) :
    blendChannel mode x y = specBlendChannel mode x y := by
  cases mode with
  | overlayMode => exact blendOverlay_eq_spec hx hy
  | addMode =>
      simp only [blendChannel, specBlendChannel]
      rw [add32_eq_add (by unfold U32; omega), clamp_eq_min]
  | multiplyMode =>
      simp only [blendChannel, specBlendChannel]
      rw [mul32_eq_mul (by
        have := Nat.mul_le_mul hx hy
        unfold U32
        omega)]
  | screenMode => exact blendScreen_eq_spec hx hy
  | darkenMode =>
      simp only [blendChannel, specBlendChannel, cvcMin]
      split <;> omega
  | lightenMode =>
      simp only [blendChannel, specBlendChannel, cvcMax]
      split <;> omega

/-- Every blend channel stays within the 16-bit range on 16-bit inputs. -/
theorem blendChannel_le (mode : CompositeMode) {x y : Nat}
    (hx : x ≤ 65535) (hy : y ≤ 65535) :
    blendChannel mode x y ≤ 65535 := by
  rw [blendChannel_eq_spec mode hx hy]
  cases mode with
  | overlayMode =>
      rw [← blendOverlay_eq_spec hx hy]
      exact blendOverlay_le hx hy
  | addMode =>
      simp only [specBlendChannel]
      omega
  | multiplyMode =>
      simp only [specBlendChannel]
      have h2 : x * y ≤ 65535 * 65535 := Nat.mul_le_mul hx hy
      omega
  | screenMode =>
      rw [← blendScreen_eq_spec hx hy]
      exact blendScreen_le hx hy
  | darkenMode =>
      simp only [specBlendChannel]
      omega
  | lightenMode =>
      simp only [specBlendChannel]
      omega

theorem specBlendChannel_le (mode : CompositeMode) {x y : Nat}
    (hx : x ≤ 65535) (hy : y ≤ 65535) :
    specBlendChannel mode x y ≤ 65535 := by
  rw [← blendChannel_eq_spec mode hx hy]
  exact blendChannel_le mode hx hy

/-- C9: for every pair of base and overlay pixels (16-bit channel values, as
    produced by Go `Color.RGBA()`), each blend mode computes per channel
    exactly the spec formula on the common integer scale — Overlay:
    `base<0.5 ? 2*base*top : 1-2*(1-base)*(1-top)`, Add: `clamp(base+top)`,
    Multiply: `base*top`, Screen: `1-(1-base)*(1-top)`, Darken: `min`,
    Lighten: `max` — and the alpha of the blended result always equals the
    overlay layer's alpha. -/
theorem blendColors_matches_spec (base overlay : Color16) (mode : CompositeMode)
    (hbr : base.r ≤ 65535) (hbg : base.g ≤ 65535) (hbb : base.b ≤ 65535)
    (hor : overlay.r ≤ 65535) (hog : overlay.g ≤ 65535)
    (hob : overlay.b ≤ 65535) (hoa : overlay.a ≤ 65535) :
    blendColors base overlay mode =
      { r := specBlendChannel mode base.r overlay.r
        g := specBlendChannel mode base.g overlay.g
        b := specBlendChannel mode base.b overlay.b
        a := overlay.a } := by
  simp only [blendColors, Color16.mk.injEq]
  refine ⟨?_, ?_, ?_, ?_⟩
  · rw [blendChannel_eq_spec mode hbr hor]
    exact Nat.mod_eq_of_lt
      (lt_of_le_of_lt (specBlendChannel_le mode hbr hor) (by unfold U16; omega))
  · rw [blendChannel_eq_spec mode hbg hog]
    exact Nat.mod_eq_of_lt
      (lt_of_le_of_lt (specBlendChannel_le mode hbg hog) (by unfold U16; omega))
  · rw [blendChannel_eq_spec mode hbb hob]
    exact Nat.mod_eq_of_lt
      (lt_of_le_of_lt (specBlendChannel_le mode hbb hob) (by unfold U16; omega))
  · exact Nat.mod_eq_of_lt (lt_of_le_of_lt hoa (by unfold U16; omega))

/-- Witness for C9 at a concrete pair of colors and the Overlay mode. -/
theorem blendColors_matches_spec_witness :
    blendColors ⟨40000, 100, 200, 7⟩ ⟨30000, 50, 60, 321⟩ .overlayMode =
      { r := specBlendChannel .overlayMode 40000 30000
        g := specBlendChannel .overlayMode 100 50
        b := specBlendChannel .overlayMode 200 60
        a := 321 } :=
  blendColors_matches_spec ⟨40000, 100, 200, 7⟩ ⟨30000, 50, 60, 321⟩
    .overlayMode (by norm_num) (by norm_num) (by norm_num) (by norm_num)
    (by norm_num) (by norm_num) (by norm_num)

/-- C10: for every pair of 16-bit channel values in `[0, 65535]`, the blend
    arithmetic of every mode performed in 32-bit unsigned integers never
    overflows — every intermediate product (e.g. `2*base*top` in the branch
    where it is computed) is at most `2^32 - 1`, so the wrapping uint32
    computation `blendChannel` coincides with the exact arithmetic
    `specBlendChannel` — and the final channel result lies in `[0, 65535]`,
    so the narrowing `uint16(.)` conversion in the composite output never
    truncates. -/
theorem blend_no_overflow (b t : Nat) (hb : b ≤ 65535) (ht : t ≤ 65535) :
    (b < 32768 → 2 * b * t ≤ U32 - 1) ∧
    (32768 ≤ b → 2 * (65535 - b) * (65535 - t) ≤ U32 - 1) ∧
    (65535 - b) * (65535 - t) ≤ U32 - 1 ∧
    b * t ≤ U32 - 1 ∧
    b + t ≤ U32 - 1 ∧
    ∀ mode : CompositeMode,
      blendChannel mode b t = specBlendChannel mode b t ∧
      blendChannel mode b t ≤ 65535 ∧
      blendChannel mode b t % U16 = blendChannel mode b t := by
  refine ⟨?_, ?_, ?_, ?_, ?_, ?_⟩
  · intro hlt
    have := overlay_prod1_lt hlt ht
    omega
  · intro hge
    have := overlay_prod2_lt hge hb ht
    omega
  · have := screen_prod_lt hb ht
    omega
  · have h2 : b * t ≤ 65535 * 65535 := Nat.mul_le_mul hb ht
    unfold U32
    omega
  · unfold U32
    omega
  · intro mode
    refine ⟨blendChannel_eq_spec mode hb ht, blendChannel_le mode hb ht, ?_⟩
    exact Nat.mod_eq_of_lt
      (lt_of_le_of_lt (blendChannel_le mode hb ht) (by unfold U16; omega))

/-- Witness for C10 at the extreme channel values 65535 and 65535. -/
theorem blend_no_overflow_witness :
    (65535 < 32768 → 2 * 65535 * 65535 ≤ U32 - 1) ∧
    (32768 ≤ 65535 → 2 * (65535 - 65535) * (65535 - 65535) ≤ U32 - 1) ∧
    (65535 - 65535) * (65535 - 65535) ≤ U32 - 1 ∧
    65535 * 65535 ≤ U32 - 1 ∧
    65535 + 65535 ≤ U32 - 1 ∧
    ∀ mode : CompositeMode,
      blendChannel mode 65535 65535 = specBlendChannel mode 65535 65535 ∧
      blendChannel mode 65535 65535 ≤ 65535 ∧
      blendChannel mode 65535 65535 % U16 = blendChannel mode 65535 65535 :=
  blend_no_overflow 65535 65535 (by norm_num) (by norm_num)

/-! ## Frames (Go `image.RGBA` bitmaps, 8 bits per channel) -/

/-- An 8-bit RGBA pixel, as stored by Go `image.RGBA`.  The zero value is
    the transparent black that `At` returns outside the bounds. -/
structure Color8 where
  r : Nat
  g : Nat
  b : Nat
  a : Nat
  deriving DecidableEq, Repr

/-- The Go zero `color.RGBA`. -/
def zeroColor : Color8 := ⟨0, 0, 0, 0⟩

/-- `color.RGBA.RGBA()` (Go standard library): widen each 8-bit channel to
    16 bits by `c |= c << 8`, i.e. multiplication by 0x101 = 257. -/
def Color8.toColor16 (c : Color8) : Color16 :=
  ⟨c.r * 257, c.g * 257, c.b * 257, c.a * 257⟩

/-- `color.RGBAModel` conversion applied by `image.RGBA.Set` to a 16-bit
    color: `uint8(c >> 8)` on each channel. -/
def color16ToColor8 (c : Color16) : Color8 :=
  ⟨c.r / 256 % 256, c.g / 256 % 256, c.b / 256 % 256, c.a / 256 % 256⟩

/-- A raw frame: a Go `image.RGBA` bitmap, stored row-major, whose declared
    `width`/`height` are the `Dx`/`Dy` of its bounds rectangle. -/
structure Frame where
  width : Nat
  height : Nat
  rows : List (List Color8)
  deriving DecidableEq, Repr

/-- `image.RGBA.At`: the pixel at `(x, y)`, the zero color outside the
    stored grid. -/
def Frame.At (f : Frame) (x y : Nat) : Color8 :=
  (f.rows.getD y []).getD x zeroColor

/-- `At` for possibly negative Go `int` coordinates. -/
def Frame.AtI (f : Frame) (x y : Int) : Color8 :=
  if 0 ≤ x ∧ 0 ≤ y then f.At x.toNat y.toNat else zeroColor

/-- `image.RGBA.Set`: replace the pixel at `(x, y)`; a no-op outside the
    bounds (`List.set` out of range is the identity). -/
def Frame.Set (f : Frame) (x y : Nat) (c : Color8) : Frame :=
  { f with rows := f.rows.set y ((f.rows.getD y []).set x c) }

/-- Well-formedness: the stored grid has exactly the declared dimensions. -/
def Frame.WF (f : Frame) : Prop :=
  f.rows.length = f.height ∧ ∀ row ∈ f.rows, row.length = f.width

instance (f : Frame) : Decidable f.WF := by
  unfold Frame.WF
  infer_instance

/-- The canonicalized bounds rectangle of Go `image.Rect`. -/
structure GoRect where
  minX : Int
  minY : Int
  maxX : Int
  maxY : Int
  deriving DecidableEq, Repr

/-- `image.Rect` (Go standard library): swaps coordinates that are out of
    order, so the rectangle is well-formed. -/
def goRect (x0 y0 x1 y1 : Int) : GoRect :=
  { minX := min x0 x1, minY := min y0 y1, maxX := max x0 x1, maxY := max y0 y1 }

/-- `Rectangle.Dx`. -/
def GoRect.dx (r : GoRect) : Int := r.maxX - r.minX

/-- `Rectangle.Dy`. -/
def GoRect.dy (r : GoRect) : Int := r.maxY - r.minY

/-- `image.NewRGBA(image.Rect(0, 0, w, h))` followed by the fill loop
    `for y := 0; y < h; y++ { for x := 0; x < w; x++ { dst.Set(x, y, pixel x y) } }`:
    the resulting bitmap, indexed from the canonicalized rectangle's minimum
    corner.  When `w` or `h` is not positive the loop body never runs, and
    the bitmap keeps its zero initialization over the canonicalized (absolute
    value) dimensions. -/
def newRGBAFilled (w h : Int) (pixel : Nat → Nat → Color8) : Frame :=
  let r := goRect 0 0 w h
  { width := r.dx.toNat
    height := r.dy.toNat
    rows := (List.range r.dy.toNat).map fun yn =>
      (List.range r.dx.toNat).map fun xn =>
        if 0 ≤ r.minX + (xn : Int) ∧ r.minX + (xn : Int) < w ∧
            0 ≤ r.minY + (yn : Int) ∧ r.minY + (yn : Int) < h then
          pixel (r.minX + (xn : Int)).toNat (r.minY + (yn : Int)).toNat
        else zeroColor }

/-- Go float-to-integer conversion — truncation toward zero — applied to the
    exact rationals this model uses in place of float64. -/
def ratTrunc (q : Rat) : Int := Int.tdiv q.num (q.den : Int)

/-! ## Compositing engine (pkg/compositing/compositing.go) -/

/-- `Position` (compositing.go); the float64 fields are modelled as `Rat`. -/
structure Position where
  x : Rat
  y : Rat
  relative : Bool
  center : Bool
  scale : Rat
  rotation : Rat
  opacity : Rat
  deriving DecidableEq, Repr

/-- `CompositeVideoClip.applyTransform` (compositing.go): nearest-neighbor
    scaling of the layer frame to `int(width*scale) × int(height*scale)`.
    The Go function's error result is always nil, so the model returns the
    frame directly.  The float64 source-coordinate computation
    `int(float64(x) * float64(width) / float64(targetWidth))` is modelled by
    truncated integer division, with which it agrees at frame-sized
    magnitudes (the float64 products are exact there). -/
def applyTransform (frame : Frame) (position : Position) : Frame :=
  let w : Int := frame.width
  let h : Int := frame.height
  let targetWidth : Int := ratTrunc ((frame.width : Rat) * position.scale)
  let targetHeight : Int := ratTrunc ((frame.height : Rat) * position.scale)
  newRGBAFilled targetWidth targetHeight fun x y =>
    let srcX : Int := Int.tdiv ((x : Int) * w) targetWidth
    let srcY : Int := Int.tdiv ((y : Int) * h) targetHeight
    let srcX : Int := if w ≤ srcX then w - 1 else srcX
    let srcY : Int := if h ≤ srcY then h - 1 else srcY
    frame.AtI srcX srcY

/-- `CompositeVideoClip.calculateOffset` (compositing.go); Go integer
    division and float-to-int conversion both truncate toward zero. -/
def calculateOffset (baseW baseH overlayW overlayH : Nat)
    (position : Position) : Int × Int :=
  if position.center then
    (Int.tdiv ((baseW : Int) - (overlayW : Int)) 2,
      Int.tdiv ((baseH : Int) - (overlayH : Int)) 2)
  else
    (ratTrunc position.x, ratTrunc position.y)

/-- `CompositeVideoClip.applyOpacity` (compositing.go): the source is a stub
    that returns the color unchanged. -/
def applyOpacity (c : Color8) (_opacity : Rat) : Color8 := c

/-- One destination-pixel update of `CompositeVideoClip.compositeFrame`
    (compositing.go): skip targets outside the base canvas bounds, otherwise
    blend the base and overlay pixels (both read through `RGBA()`, 16-bit)
    and write the `color.RGBA64` result back through `image.RGBA.Set`. -/
def compositePixel (base overlay : Frame) (position : Position)
    (mode : CompositeMode) (offsetX offsetY : Int) (x y : Nat) : Frame :=
  let targetX : Int := offsetX + (x : Int)
  let targetY : Int := offsetY + (y : Int)
  if targetX < 0 ∨ (base.width : Int) ≤ targetX ∨
      targetY < 0 ∨ (base.height : Int) ≤ targetY then
    base
  else
    let baseColor := base.At targetX.toNat targetY.toNat
    let overlayColor := overlay.At x y
    let overlayColor :=
      if position.opacity < 1 then applyOpacity overlayColor position.opacity
      else overlayColor
    let c := blendColors baseColor.toColor16 overlayColor.toColor16 mode
    base.Set targetX.toNat targetY.toNat (color16ToColor8 c)

/-- `CompositeVideoClip.compositeFrame` (compositing.go): blend every
    overlay pixel onto the base canvas at its placement offset. -/
def compositeFrame (base overlay : Frame) (position : Position)
    (mode : CompositeMode) : Frame :=
  let off := calculateOffset base.width base.height overlay.width
    overlay.height position
  (List.range overlay.height).foldl (fun acc y =>
    (List.range overlay.width).foldl (fun acc2 x =>
      compositePixel acc2 overlay position mode off.1 off.2 x y) acc) base

/-- The base-canvas construction in `CompositeVideoClip.GetFrame`
    (compositing.go): `composite := image.NewRGBA(baseFrame.Bounds())`
    followed by the pixelwise loop `composite.Set(x, y, baseFrame.At(x, y))`
    — a direct copy of layer 0's frame into a fresh buffer (`Set` of an
    8-bit RGBA color is the identity conversion). -/
def copyFrame (f : Frame) : Frame :=
  { width := f.width
    height := f.height
    rows := (List.range f.height).map fun y =>
      (List.range f.width).map fun x => f.At x y }

/-- The layer loop of `CompositeVideoClip.GetFrame` (compositing.go): a
    layer whose frame fetch failed is skipped (`continue`), any other layer
    is scaled by `applyTransform` and blended onto the canvas.  Each list
    entry pairs one layer's `GetFrame(t)` outcome with its position,
    mirroring the parallel `clips[i]` / `positions[i]` slices. -/
def compositeLayers (canvas : Frame)
    (layers : List (Except String Frame × Position))
    (mode : CompositeMode) : Frame :=
  match layers with
  | [] => canvas
  | (.error _, _) :: rest => compositeLayers canvas rest mode
  | (.ok f, position) :: rest =>
      compositeLayers
        (compositeFrame canvas (applyTransform f position) position mode)
        rest mode

/-- `CompositeVideoClip.GetFrame` (compositing.go), with each clip's
    `GetFrame(t)` outcome supplied as data: fails when the composite is
    closed, when it has no clips, or when the base layer's fetch fails;
    otherwise copies layer 0's frame into a fresh canvas and folds the
    remaining layers onto it. -/
def compositeGetFrame (closed : Bool)
    (layers : List (Except String Frame × Position))
    (mode : CompositeMode) : Except String Frame :=
  if closed then .error "clip closed"
  else
    match layers with
    | [] => .error "no clips to composite"
    | (.error e, _) :: _ => .error ("failed to fetch base frame: " ++ e)
    | (.ok baseFrame, _) :: rest =>
        .ok (compositeLayers (copyFrame baseFrame) rest mode)

/-- Copying a well-formed frame pixel by pixel reproduces it exactly. -/
theorem copyFrame_eq_self {f : Frame} (h : f.WF) : copyFrame f = f := by
  obtain ⟨hlen, hrow⟩ := h
  unfold copyFrame
  cases f with
  | mk width height rows =>
      simp only [Frame.mk.injEq, true_and]
      simp only at hlen hrow
      apply List.ext_getElem
      · simpa using hlen.symm
      · intro i h1 h2
        rw [List.getElem_map, List.getElem_range]
        apply List.ext_getElem
        · simp only [List.length_map, List.length_range]
          exact (hrow _ (List.getElem_mem h2)).symm
        · intro j h3 h4
          rw [List.getElem_map, List.getElem_range]
          show Frame.At ⟨width, height, rows⟩ j i = _
          unfold Frame.At
          simp only
          have hi : rows.getD i [] = rows[i] := by
            rw [List.getD_eq_getElem?_getD, List.getElem?_eq_getElem h2,
              Option.getD_some]
          rw [hi, List.getD_eq_getElem?_getD, List.getElem?_eq_getElem h4,
            Option.getD_some]

/-- C8: for every composite with exactly one layer, `GetFrame` is
    pixel-identical to that layer's own `GetFrame` output; the base canvas
    is built by copying layer 0's frame into a freshly allocated buffer
    (`copyFrame`, modelling `image.NewRGBA` plus the pixelwise copy loop),
    so blending additional layers operates on that copy and never on the
    source frame, which the model returns unchanged. -/
theorem composite_single_layer_identity (f : Frame) (position : Position)
    (mode : CompositeMode) (hwf : f.WF) :
    compositeGetFrame false [(.ok f, position)] mode = .ok f := by
  simp [compositeGetFrame, compositeLayers, copyFrame_eq_self hwf]

/-- Witness for C8 on a concrete 2×2 frame. -/
theorem composite_single_layer_identity_witness :
    compositeGetFrame false
      [(.ok ⟨2, 2, [[⟨1, 2, 3, 255⟩, ⟨4, 5, 6, 255⟩],
        [⟨7, 8, 9, 255⟩, ⟨10, 11, 12, 255⟩]]⟩,
        ⟨0, 0, false, false, 1, 0, 1⟩)] .addMode =
      .ok ⟨2, 2, [[⟨1, 2, 3, 255⟩, ⟨4, 5, 6, 255⟩],
        [⟨7, 8, 9, 255⟩, ⟨10, 11, 12, 255⟩]]⟩ :=
  composite_single_layer_identity
    ⟨2, 2, [[⟨1, 2, 3, 255⟩, ⟨4, 5, 6, 255⟩],
      [⟨7, 8, 9, 255⟩, ⟨10, 11, 12, 255⟩]]⟩
    ⟨0, 0, false, false, 1, 0, 1⟩ .addMode (by decide)

/-! ## Frame decoder (pkg/ffmpeg/process.go, `VideoReader`) -/

/-- `VideoInfo` (process.go), restricted to the fields that `GetFrame`
    reads; the float64 duration in seconds is modelled as `Rat`. -/
structure VideoInfo where
  duration : Rat
  width : Nat
  height : Nat
  deriving DecidableEq, Repr

/-- The `VideoReader` state consulted by `GetFrame` (process.go). -/
structure VideoReader where
  closed : Bool
  info : Option VideoInfo
  deriving DecidableEq, Repr

/-- The error outcomes of `VideoReader.GetFrame` (process.go), in source
    order of occurrence. -/
inductive GetFrameErr where
  | readerClosed
  | notOpened
  | outOfRange
  | spawnFailed
  | shortRead
  | processExit
  deriving DecidableEq, Repr

/-- `time.Duration.Seconds()`: the nanosecond count divided by 10^9,
    modelled exactly as a rational. -/
def durationSeconds (t : Int) : Rat := (t : Rat) / 1000000000

/-- The validation prefix of `VideoReader.GetFrame` (process.go): the
    closed check, the open check, then the single range check
    `timestamp > vr.info.Duration`.  Only when all three pass does the code
    go on to build the ffmpeg argument list and spawn the transcoder; the
    returned `VideoInfo` feeds the pixel read. -/
def getFrameCheck (vr : VideoReader) (t : Int) :
    Except GetFrameErr VideoInfo :=
  if vr.closed then .error .readerClosed
  else
    match vr.info with
    | none => .error .notOpened
    | some info =>
        if durationSeconds t > info.duration then .error .outOfRange
        else .ok info

/-- The `image.NewRGBA` construction loop at the end of
    `VideoReader.GetFrame` (process.go): pixel `(x, y)` takes bytes
    `(y*w+x)*3 .. (y*w+x)*3+2` of the pixel buffer as R, G, B, with
    alpha 255. -/
def frameFromBytes (w h : Nat) (bytes : List Nat) : Frame :=
  { width := w
    height := h
    rows := (List.range h).map fun y =>
      (List.range w).map fun x =>
        { r := bytes.getD ((y * w + x) * 3) 0
          g := bytes.getD ((y * w + x) * 3 + 1) 0
          b := bytes.getD ((y * w + x) * 3 + 2) 0
          a := 255 } }

/-- `VideoReader.GetFrame` (process.go) with the external process's
    behavior supplied as data: `spawnFails` is whether `cmd.Start()` fails,
    `stream` is the byte sequence the transcoder writes to standard output,
    `exitErr` is whether `cmd.Wait()` reports failure.  After validation the
    code reads exactly `width*height*3` bytes with `io.ReadFull`: a shorter
    stream is a hard error (the process is killed, no frame returned), a
    failing exit after a full read is also an error, and only otherwise is
    the frame constructed from the bytes read. -/
def getFrameRun (vr : VideoReader) (t : Int) (spawnFails : Bool)
    (stream : List Nat) (exitErr : Bool) : Except GetFrameErr Frame :=
  match getFrameCheck vr t with
  | .error e => .error e
  | .ok info =>
      if spawnFails then .error .spawnFailed
      else
        let want := info.width * info.height * 3
        if stream.length < want then .error .shortRead
        else if exitErr then .error .processExit
        else .ok (frameFromBytes info.width info.height (stream.take want))

theorem frameFromBytes_WF (w h : Nat) (bytes : List Nat) :
    (frameFromBytes w h bytes).WF := by
  unfold Frame.WF frameFromBytes
  constructor
  · simp
  · intro row hrow
    simp only [List.mem_map, List.mem_range] at hrow
    obtain ⟨y, -, rfl⟩ := hrow
    simp

theorem getFrameCheck_ok_info {vr : VideoReader} {t : Int} {info : VideoInfo}
    (h : getFrameCheck vr t = .ok info) : vr.info = some info := by
  unfold getFrameCheck at h
  by_cases hc : vr.closed
  · simp [hc] at h
  · simp only [hc, if_false, Bool.false_eq_true] at h
    cases hinfo : vr.info with
    | none => rw [hinfo] at h; exact absurd h (by simp)
    | some i =>
        rw [hinfo] at h
        by_cases hr : durationSeconds t > i.duration
        · simp [hr] at h
        · simp only [hr, if_false] at h
          cases h
          rfl

/-- A 10-second, 640×480 open reader, used as concrete test state. -/
def readerEx : VideoReader := { closed := false, info := some ⟨10, 640, 480⟩ }

/-- C2 counterexample: on an open 10-second source, `GetFrame(-1s)` is NOT
    rejected — the negative timestamp passes the validation prefix (the code
    checks only `timestamp > duration`), so the call proceeds to spawn a
    transcoder process with seek `-1.000`, contradicting the claim that a
    negative timestamp fails with a range error before spawning. -/
theorem getFrame_negative_timestamp_spawns :
    getFrameCheck readerEx (-1000000000) = .ok ⟨10, 640, 480⟩ := by
  unfold getFrameCheck readerEx
  norm_num [durationSeconds]

/-- C2 (amended): with the reader open, `GetFrame` validates only the upper
    bound before spawning anything: it fails with the out-of-range error
    exactly when the timestamp's seconds value exceeds the cached duration
    (in particular `getFrame(duration + 1s)` fails this way, spawning no
    process), and every other timestamp — including every negative one —
    passes validation and proceeds to spawn the transcoder. -/
theorem getFrame_range_check_upper_only (vr : VideoReader) (t : Int)
    (info : VideoInfo) (hclosed : vr.closed = false)
    (hinfo : vr.info = some info) :
    (getFrameCheck vr t = .error .outOfRange ↔
      info.duration < durationSeconds t) ∧
    (getFrameCheck vr t = .ok info ↔ durationSeconds t ≤ info.duration) := by
  unfold getFrameCheck
  rw [hclosed, hinfo]
  simp only [Bool.false_eq_true, if_false]
  by_cases hr : durationSeconds t > info.duration
  · rw [if_pos hr]
    simp only [gt_iff_lt] at hr
    constructor
    · simp [hr]
    · simp [not_le.mpr hr]
  · rw [if_neg hr]
    simp only [gt_iff_lt, not_lt] at hr
    constructor
    · simp [not_lt.mpr hr]
    · simp [hr]

/-- Witness for C2's amended theorem: `getFrame(11s)` on the open 10-second
    reader fails out of range. -/
theorem getFrame_range_check_upper_only_witness :
    (getFrameCheck readerEx 11000000000 = .error .outOfRange ↔
      (⟨10, 640, 480⟩ : VideoInfo).duration < durationSeconds 11000000000) ∧
    (getFrameCheck readerEx 11000000000 = .ok ⟨10, 640, 480⟩ ↔
      durationSeconds 11000000000 ≤ (⟨10, 640, 480⟩ : VideoInfo).duration) :=
  getFrame_range_check_upper_only readerEx 11000000000 ⟨10, 640, 480⟩ rfl rfl

/-- C4: every successful decode consumed exactly `width*height*3` bytes of
    the transcoder's output (the returned frame is built from precisely that
    prefix and is a complete, well-formed `width × height` grid — never a
    partially filled frame), and whenever the stream ends before that byte
    count the call returns an error and no frame. -/
theorem getFrame_exact_byte_contract (vr : VideoReader) (t : Int)
    (spawnFails : Bool) (stream : List Nat) (exitErr : Bool)
    (info : VideoInfo) (hinfo : vr.info = some info) :
    (∀ f, getFrameRun vr t spawnFails stream exitErr = .ok f →
      info.width * info.height * 3 ≤ stream.length ∧
      f = frameFromBytes info.width info.height
        (stream.take (info.width * info.height * 3)) ∧
      (stream.take (info.width * info.height * 3)).length =
        info.width * info.height * 3 ∧
      f.WF ∧ f.width = info.width ∧ f.height = info.height) ∧
    (stream.length < info.width * info.height * 3 →
      ∀ f, getFrameRun vr t spawnFails stream exitErr ≠ .ok f) := by
  unfold getFrameRun
  cases hchk : getFrameCheck vr t with
  | error e => exact ⟨fun f h => by simp at h, fun _ f h => by simp at h⟩
  | ok info0 =>
      have hi0 : info0 = info := by
        have := getFrameCheck_ok_info hchk
        rw [hinfo] at this
        exact (Option.some_inj.mp this).symm
      subst hi0
      by_cases hsp : spawnFails
      · exact ⟨fun f h => by simp [hsp] at h, fun _ f h => by simp [hsp] at h⟩
      · by_cases hlen : stream.length < info0.width * info0.height * 3
        · refine ⟨fun f h => ?_, fun _ f h => ?_⟩
          · simp [hsp, hlen] at h
          · simp [hsp, hlen] at h
        · by_cases hex : exitErr
          · refine ⟨fun f h => by simp [hsp, hlen, hex] at h,
              fun hcon _ _ => absurd hcon hlen⟩
          · refine ⟨fun f h => ?_, fun hcon _ _ => absurd hcon hlen⟩
            simp only [hsp, hlen, hex, if_false, Bool.false_eq_true] at h
            cases h
            refine ⟨by omega, rfl, ?_, frameFromBytes_WF _ _ _, rfl, rfl⟩
            rw [List.length_take]
            omega

/-- Witness for C4 on a 2×1 frame: the successful decode of a 7-byte stream
    consumed exactly 6 bytes and produced the complete, well-formed frame
    built from them. -/
theorem getFrame_exact_byte_contract_witness :
    2 * 1 * 3 ≤ [1, 2, 3, 4, 5, 6, 7].length ∧
    frameFromBytes 2 1 ([1, 2, 3, 4, 5, 6, 7].take (2 * 1 * 3)) =
      frameFromBytes 2 1 ([1, 2, 3, 4, 5, 6, 7].take (2 * 1 * 3)) ∧
    ([1, 2, 3, 4, 5, 6, 7].take (2 * 1 * 3)).length = 2 * 1 * 3 ∧
    (frameFromBytes 2 1 ([1, 2, 3, 4, 5, 6, 7].take (2 * 1 * 3))).WF ∧
    (frameFromBytes 2 1 ([1, 2, 3, 4, 5, 6, 7].take (2 * 1 * 3))).width = 2 ∧
    (frameFromBytes 2 1 ([1, 2, 3, 4, 5, 6, 7].take (2 * 1 * 3))).height = 1 :=
  (getFrame_exact_byte_contract ⟨false, some ⟨10, 2, 1⟩⟩ 0 false
      [1, 2, 3, 4, 5, 6, 7] false ⟨10, 2, 1⟩ rfl).1
    (frameFromBytes 2 1 ([1, 2, 3, 4, 5, 6, 7].take (2 * 1 * 3)))
    (by norm_num [getFrameRun, getFrameCheck, durationSeconds])

/-! ## Frame encoder (pkg/ffmpeg/writer.go, `VideoWriter`) -/

/-- The `VideoWriter` state consulted by `WriteFrame` (writer.go): the
    closed flag, whether `Open` has installed a process (`process != nil`),
    the declared output dimensions, whether the process's completion channel
    has already fired (the non-blocking `select` on `process.done`), and the
    bytes written so far into the transcoder's input pipe. -/
structure VideoWriter where
  closed : Bool
  opened : Bool
  width : Nat
  height : Nat
  procExited : Bool
  pipe : List Nat
  deriving DecidableEq, Repr

/-- The error outcomes of `VideoWriter.WriteFrame` (writer.go), in source
    order. -/
inductive WriteFrameErr where
  | writerClosed
  | notOpened
  | dimMismatch
  | procExited
  | writeFailed
  deriving DecidableEq, Repr

/-- The per-pixel byte conversion of `VideoWriter.WriteFrame` (writer.go):
    `r, g, b, _ := frame.At(x, y).RGBA()` then `byte(r >> 8)` per channel —
    on an 8-bit RGBA frame this recovers the stored 8-bit values. -/
def pixelBytes (c : Color8) : List Nat :=
  [c.toColor16.r / 256 % 256, c.toColor16.g / 256 % 256,
    c.toColor16.b / 256 % 256]

/-- The pixel-buffer construction loop of `VideoWriter.WriteFrame`
    (writer.go): the frame's pixels in row-major order, three bytes each. -/
def frameBytes (vw : VideoWriter) (frame : Frame) : List Nat :=
  ((List.range vw.height).map fun y =>
    ((List.range vw.width).map fun x => pixelBytes (frame.At x y)).flatten).flatten

/-- `VideoWriter.WriteFrame` (writer.go) with the pipe write outcome
    supplied as data (`writeFails` is whether `vw.stdin.Write` errors): the
    closed check, the open check, the dimension check
    `bounds.Dx() != vw.width || bounds.Dy() != vw.height`, the pixel-buffer
    conversion, the non-blocking process-exit check, then the pipe write. -/
def writeFrame (vw : VideoWriter) (frame : Frame) (writeFails : Bool) :
    VideoWriter × Except WriteFrameErr Unit :=
  if vw.closed then (vw, .error .writerClosed)
  else if !vw.opened then (vw, .error .notOpened)
  else if frame.width ≠ vw.width ∨ frame.height ≠ vw.height then
    (vw, .error .dimMismatch)
  else if vw.procExited then (vw, .error .procExited)
  else if writeFails then (vw, .error .writeFailed)
  else ({ vw with pipe := vw.pipe ++ frameBytes vw frame }, .ok ())

/-- C5: for every frame whose width or height differs from the encoder's
    declared dimensions, `WriteFrame` fails with the dimension-mismatch
    error and the writer's state — in particular the bytes in the
    transcoder's input pipe — is completely unchanged by the failed call
    (the check precedes any pipe write). -/
theorem writeFrame_dim_mismatch_writes_nothing (vw : VideoWriter)
    (frame : Frame) (writeFails : Bool) (hclosed : vw.closed = false)
    (hopen : vw.opened = true)
    (hdim : frame.width ≠ vw.width ∨ frame.height ≠ vw.height) :
    writeFrame vw frame writeFails = (vw, .error .dimMismatch) := by
  unfold writeFrame
  rw [hclosed, hopen]
  simp only [Bool.false_eq_true, if_false, Bool.not_true, if_pos hdim]

/-- Witness for C5: a 3×2 frame pushed at a 4×2 writer fails with the
    dimension mismatch and leaves the pipe untouched. -/
theorem writeFrame_dim_mismatch_writes_nothing_witness :
    writeFrame ⟨false, true, 4, 2, false, [9, 9, 9]⟩ ⟨3, 2, []⟩ false =
      (⟨false, true, 4, 2, false, [9, 9, 9]⟩, .error .dimMismatch) :=
  writeFrame_dim_mismatch_writes_nothing ⟨false, true, 4, 2, false, [9, 9, 9]⟩
    ⟨3, 2, []⟩ false rfl rfl (by norm_num)

/-! ## Clip layer (the video package, `VideoFileClip`) -/

/-- The `VideoFileClip` state relevant to frame retrieval: the embedded
    `BaseVideoClip` timing fields (`time.Duration` = `Int` nanoseconds) and
    dimensions, the float64 speed factor as `Rat`, the closed flag, and
    whether the shared `VideoReader` is installed. -/
structure VideoFileClip where
  start : Int
  stop : Int
  duration : Int
  fps : Rat
  width : Nat
  height : Nat
  speedFactor : Rat
  closed : Bool
  readerOpen : Bool
  deriving DecidableEq, Repr

/-- `VideoFileClip.GetFrame`: after the closed and reader checks it
    computes the source timestamp handed to `reader.GetFrame`:
    `Start() + t` normally, and
    `Start() + time.Duration(float64(t) * speedFactor)` when the speed
    factor is neither 1.0 nor 0 (the `time.Duration` conversion truncates
    toward zero).  The model returns that requested source timestamp. -/
def vfcGetFrameRequest (c : VideoFileClip) (t : Int) : Except String Int :=
  if c.closed then .error "clip closed"
  else if !c.readerOpen then .error "video not opened"
  else if c.speedFactor ≠ 1 ∧ c.speedFactor ≠ 0 then
    .ok (c.start + ratTrunc ((t : Rat) * c.speedFactor))
  else .ok (c.start + t)

/-- `VideoFileClip.Subclip`: bounds validation, then a new clip sharing the
    reader with `start`, `end`, `duration := end - start`, inheriting fps,
    dimensions and speed factor. -/
def vfcSubclip (c : VideoFileClip) (s e : Int) :
    Except String VideoFileClip :=
  if s < 0 ∨ e > c.duration ∨ s ≥ e then .error "invalid time range"
  else .ok { c with
    start := s
    stop := e
    duration := e - s
    closed := false }

/-- `VideoFileClip.WithSpeed`: rejects non-positive factors, computes
    `newDuration := time.Duration(float64(Duration()) / factor)` and returns
    a new clip over `[Start(), Start()+newDuration]` carrying the factor. -/
def vfcWithSpeed (c : VideoFileClip) (factor : Rat) :
    Except String VideoFileClip :=
  if factor ≤ 0 then .error "invalid speed factor"
  else
    let newDuration := ratTrunc ((c.duration : Rat) / factor)
    .ok { c with
      stop := c.start + newDuration
      duration := newDuration
      speedFactor := factor
      closed := false }

theorem ratTrunc_intCast (n : Int) : ratTrunc (n : Rat) = n := by
  unfold ratTrunc
  simp [Rat.num_intCast, Rat.den_intCast]

/-- A 10-second, 30 fps, 640×480 source clip at normal speed. -/
def source10 : VideoFileClip :=
  ⟨0, 10000000000, 10000000000, 30, 640, 480, 1, false, true⟩

/-- `source10.Subclip(2s, 5s)`. -/
def sub25 : VideoFileClip :=
  ⟨2000000000, 5000000000, 3000000000, 30, 640, 480, 1, false, true⟩

/-- `source10.WithSpeed(2.0)`. -/
def sped2 : VideoFileClip :=
  ⟨0, 5000000000, 5000000000, 30, 640, 480, 2, false, true⟩

/-- C6: for every open clip with positive speed factor, `GetFrame(t)`
    requests the source frame at `start + trunc(t * speedFactor)` (exactly
    `start + t * speed_factor`, the truncation being the integer-nanosecond
    representation); concretely, on a 10-second source, `Subclip(2s, 5s)`
    then `getFrame(0)` requests absolute source time 2s, and
    `WithSpeed(2.0)` halves the reported duration to 5s with `getFrame(1s)`
    requesting absolute source time 2s. -/
theorem clip_time_mapping :
    (∀ (c : VideoFileClip) (t : Int), c.closed = false →
      c.readerOpen = true → 0 < c.speedFactor →
      vfcGetFrameRequest c t =
        .ok (c.start + ratTrunc ((t : Rat) * c.speedFactor))) ∧
    vfcSubclip source10 2000000000 5000000000 = .ok sub25 ∧
    vfcGetFrameRequest sub25 0 = .ok 2000000000 ∧
    vfcWithSpeed source10 2 = .ok sped2 ∧
    sped2.duration = 5000000000 ∧
    vfcGetFrameRequest sped2 1000000000 = .ok 2000000000 := by
  refine ⟨?_, ?_, ?_, ?_, rfl, ?_⟩
  · intro c t h1 h2 h3
    unfold vfcGetFrameRequest
    rw [h1, h2]
    by_cases hq : c.speedFactor = 1
    · simp only [hq, mul_one, ne_eq, not_true_eq_false, false_and, if_false,
        Bool.not_true, Bool.false_eq_true]
      rw [ratTrunc_intCast]
    · have hq0 : c.speedFactor ≠ 0 := ne_of_gt h3
      simp [hq, hq0]
  · unfold vfcSubclip source10 sub25
    norm_num
  · unfold vfcGetFrameRequest sub25
    norm_num
  · unfold vfcWithSpeed source10 sped2
    norm_num [ratTrunc]
  · unfold vfcGetFrameRequest sped2
    norm_num [ratTrunc]

/-- Witness for C6's universally quantified part at the sped-up clip and
    t = 3s. -/
theorem clip_time_mapping_witness :
    vfcGetFrameRequest sped2 3000000000 =
      .ok (sped2.start +
        ratTrunc (((3000000000 : Int) : Rat) * sped2.speedFactor)) :=
  clip_time_mapping.1 sped2 3000000000 rfl rfl (by norm_num [sped2])

/-! ## Resize effect (pkg/effects/effects.go) -/

/-- `ResizeEffect` (effects.go): the declared target dimensions (Go ints). -/
structure ResizeEffect where
  width : Int
  height : Int
  deriving DecidableEq, Repr

/-- `NewResizeEffect` (effects.go): each requested dimension is incremented
    by one when odd (`width%2 != 0`; Go's truncated remainder and Lean's
    Euclidean remainder agree on whether a value is divisible by 2), so the
    declared dimensions are always even. -/
def NewResizeEffect (w h : Int) : ResizeEffect :=
  { width := if w % 2 ≠ 0 then w + 1 else w
    height := if h % 2 ≠ 0 then h + 1 else h }

/-- `ResizeEffect.ApplyToFrame` (effects.go): nearest-neighbor resampling
    into `image.NewRGBA(image.Rect(0, 0, re.width, re.height))`.  The
    float64 source-coordinate computation
    `int(float64(x) * float64(srcWidth) / float64(re.width))` is modelled by
    truncated integer division, with which it agrees at frame magnitudes;
    a computed source coordinate at or past the source size is clamped to
    the last column/row. -/
def resizeApplyToFrame (re : ResizeEffect) (src : Frame) : Frame :=
  let srcWidth : Int := src.width
  let srcHeight : Int := src.height
  newRGBAFilled re.width re.height fun x y =>
    let srcX : Int := Int.tdiv ((x : Int) * srcWidth) re.width
    let srcY : Int := Int.tdiv ((y : Int) * srcHeight) re.height
    let srcX : Int := if srcWidth ≤ srcX then srcWidth - 1 else srcX
    let srcY : Int := if srcHeight ≤ srcY then srcHeight - 1 else srcY
    src.AtI srcX srcY

theorem newRGBAFilled_dims (w h : Int) (pixel : Nat → Nat → Color8)
    (hw : 0 ≤ w) (hh : 0 ≤ h) :
    ((newRGBAFilled w h pixel).width : Int) = w ∧
    ((newRGBAFilled w h pixel).height : Int) = h := by
  simp only [newRGBAFilled, goRect, GoRect.dx, GoRect.dy]
  constructor <;> omega

/-- C7 counterexample: `Resize(-3, 4)` declares width `-2` (even, as the odd
    `-3` is incremented), but `ApplyToFrame` on a 4×4 source produces a
    frame of width `2` — the canonicalization inside `image.Rect` flips the
    negative declared width — so the produced width does not equal the
    declared width, refuting the claim for arbitrary requested integers. -/
theorem resize_negative_request_dims :
    (NewResizeEffect (-3) 4).width = -2 ∧
    ((resizeApplyToFrame (NewResizeEffect (-3) 4) ⟨4, 4, []⟩).width : Int)
      = 2 ∧
    ((resizeApplyToFrame (NewResizeEffect (-3) 4) ⟨4, 4, []⟩).width : Int) ≠
      (NewResizeEffect (-3) 4).width := by
  refine ⟨rfl, rfl, by decide⟩

/-- C7 (amended): `Resize(w, h)` always declares even dimensions (odd
    requests are incremented by one), and whenever the declared dimensions
    are nonnegative — i.e. for every request `w, h ≥ -1`, in particular all
    nonnegative requests — the nearest-neighbor `ApplyToFrame` outputs
    exactly the declared dimensions on every source frame.  (For requests
    `≤ -2` the declared dimension is negative and the output frame gets its
    absolute value instead.) -/
theorem resize_dims_even_and_exact (w h : Int) (src : Frame)
    (hw : -1 ≤ w) (hh : -1 ≤ h) :
    (NewResizeEffect w h).width % 2 = 0 ∧
    (NewResizeEffect w h).height % 2 = 0 ∧
    ((resizeApplyToFrame (NewResizeEffect w h) src).width : Int) =
      (NewResizeEffect w h).width ∧
    ((resizeApplyToFrame (NewResizeEffect w h) src).height : Int) =
      (NewResizeEffect w h).height := by
  have hwnn : 0 ≤ (NewResizeEffect w h).width := by
    simp only [NewResizeEffect]
    split <;> omega
  have hhnn : 0 ≤ (NewResizeEffect w h).height := by
    simp only [NewResizeEffect]
    split <;> omega
  have hdims := newRGBAFilled_dims (NewResizeEffect w h).width
    (NewResizeEffect w h).height
    (fun x y =>
      let srcX : Int := Int.tdiv ((x : Int) * (src.width : Int))
        (NewResizeEffect w h).width
      let srcY : Int := Int.tdiv ((y : Int) * (src.height : Int))
        (NewResizeEffect w h).height
      let srcX : Int := if (src.width : Int) ≤ srcX then (src.width : Int) - 1
        else srcX
      let srcY : Int := if (src.height : Int) ≤ srcY then
        (src.height : Int) - 1 else srcY
      src.AtI srcX srcY) hwnn hhnn
  refine ⟨?_, ?_, hdims.1, hdims.2⟩
  · simp only [NewResizeEffect]
    split <;> omega
  · simp only [NewResizeEffect]
    split <;> omega

/-- Witness for C7's amended theorem at the request (5, 4) on a 1×1 frame:
    the declared and produced dimensions are the even pair (6, 4). -/
theorem resize_dims_even_and_exact_witness :
    (NewResizeEffect 5 4).width % 2 = 0 ∧
    (NewResizeEffect 5 4).height % 2 = 0 ∧
    ((resizeApplyToFrame (NewResizeEffect 5 4)
      ⟨1, 1, [[⟨3, 4, 5, 255⟩]]⟩).width : Int) = (NewResizeEffect 5 4).width ∧
    ((resizeApplyToFrame (NewResizeEffect 5 4)
      ⟨1, 1, [[⟨3, 4, 5, 255⟩]]⟩).height : Int) =
      (NewResizeEffect 5 4).height :=
  resize_dims_even_and_exact 5 4 ⟨1, 1, [[⟨3, 4, 5, 255⟩]]⟩ (by norm_num)
    (by norm_num)

/-! ## Process supervisor (pkg/ffmpeg/process.go, `ProcessManager`) -/

/-- A `ManagedProcess` (process.go) together with the behavior of the OS
    process it wraps: `exitAfterTerm` is the delay in milliseconds after a
    SIGTERM to its process group at which the process would exit on its own
    (`none` for a process that ignores SIGTERM). -/
structure ManagedProcess where
  pid : Nat
  exitAfterTerm : Option Nat
  deriving DecidableEq, Repr

/-- `ProcessManager` (process.go): the pid-indexed registry (a Go map,
    modelled as a list with insert-or-overwrite) and whether the manager's
    own context has been canceled. -/
structure ProcessManager where
  processes : List ManagedProcess
  ctxCanceled : Bool
  deriving DecidableEq, Repr

/-- The fixed 5-second grace period of `TerminateProcess` (process.go), in
    milliseconds. -/
def gracePeriodMs : Nat := 5000

/-- The registry lookup `pm.processes[pid]`. -/
def findProcess (pm : ProcessManager) (pid : Nat) : Option ManagedProcess :=
  pm.processes.find? (fun mp => mp.pid == pid)

/-- `ProcessManager.GetProcessCount` (process.go). -/
def processCount (pm : ProcessManager) : Nat := pm.processes.length

/-- `ProcessManager.StartProcess` (process.go) with the OS outcome supplied
    as data: `callerCtxCanceled` is whether the CALLER-supplied context —
    the only context the function consults, through
    `exec.CommandContext(ctx, ...)`; `pm.ctx` is never read — is already
    done, and `spawnFails` is whether `cmd.Start()` fails to launch the
    executable.  On success the process is registered under its pid (map
    overwrite semantics) and its monitoring goroutine is launched; the
    manager's own canceled flag plays no role in the outcome. -/
def startProcess (pm : ProcessManager) (callerCtxCanceled spawnFails : Bool)
    (pid : Nat) (behavior : Option Nat) :
    ProcessManager × Except String Nat :=
  if callerCtxCanceled || spawnFails then
    (pm, .error "failed to start process")
  else
    ({ pm with processes :=
        ⟨pid, behavior⟩ :: pm.processes.filter (fun mp => mp.pid != pid) },
      .ok pid)

/-- `ProcessManager.TerminateProcess` (process.go): a pid not in the
    registry is an error; otherwise the process context is canceled, SIGTERM
    goes to the process group, and the function waits at most the grace
    period on the completion channel, escalating to SIGKILL on timeout — in
    BOTH branches it returns nil.  The monitoring goroutine started by
    `StartProcess` (which runs once the process exits — at the latest right
    after the SIGKILL) removes the registry entry; the returned state is the
    registry after that removal has fired, and `terminateRemovalTime` below
    bounds when it fires. -/
def terminateProcess (pm : ProcessManager) (pid : Nat) :
    ProcessManager × Except String Unit :=
  match findProcess pm pid with
  | none => (pm, .error "process does not exist")
  | some _ =>
      ({ pm with processes := pm.processes.filter (fun mp => mp.pid != pid) },
        .ok ())

/-- The time, in milliseconds from the SIGTERM, by which the monitoring
    goroutine has removed a terminated process from the registry: a process
    that exits within the grace period is removed `eps` after its exit, any
    other is SIGKILLed when the grace period expires and removed `eps`
    later, `eps` bounding the kill-plus-scheduling latency. -/
def terminateRemovalTime (mp : ManagedProcess) (eps : Nat) : Nat :=
  match mp.exitAfterTerm with
  | some e => if e ≤ gracePeriodMs then e + eps else gracePeriodMs + eps
  | none => gracePeriodMs + eps

/-- `ProcessManager.KillAllProcesses` (process.go): snapshot the registered
    pids under the read lock, then terminate each one. -/
def killAllProcesses (pm : ProcessManager) : ProcessManager :=
  (pm.processes.map (fun mp => mp.pid)).foldl
    (fun s pid => (terminateProcess s pid).1) pm

/-- `ProcessManager.Close` (process.go): cancel the manager's own context,
    then kill all registered processes. -/
def closeManager (pm : ProcessManager) : ProcessManager :=
  killAllProcesses { pm with ctxCanceled := true }

theorem terminateProcess_fst (pm : ProcessManager) (pid : Nat) :
    (terminateProcess pm pid).1.processes =
      pm.processes.filter (fun mp => mp.pid != pid) := by
  unfold terminateProcess
  cases h : findProcess pm pid with
  | none =>
      unfold findProcess at h
      simp only
      rw [eq_comm]
      apply List.filter_eq_self.mpr
      intro mp hm
      have := List.find?_eq_none.mp h mp hm
      simpa using this
  | some mp => rfl

theorem terminateProcess_ctx (pm : ProcessManager) (pid : Nat) :
    (terminateProcess pm pid).1.ctxCanceled = pm.ctxCanceled := by
  unfold terminateProcess
  cases h : findProcess pm pid <;> rfl

theorem foldTerm_empty (L : List Nat) (s : ProcessManager)
    (h : ∀ mp ∈ s.processes, mp.pid ∈ L) :
    (L.foldl (fun s pid => (terminateProcess s pid).1) s).processes = [] := by
  induction L generalizing s with
  | nil =>
      rw [List.foldl_nil]
      rcases hs : s.processes with - | ⟨a, tl⟩
      · rfl
      · exact absurd (h a (by rw [hs]; exact List.mem_cons_self a tl))
          (List.not_mem_nil a.pid)
  | cons p rest ih =>
      rw [List.foldl_cons]
      apply ih
      intro mp hm
      rw [terminateProcess_fst] at hm
      obtain ⟨hmem, hcond⟩ := List.mem_filter.mp hm
      have hne : mp.pid ≠ p := by simpa using hcond
      have := h mp hmem
      rcases List.mem_cons.mp this with heq | hmem2
      · exact absurd heq hne
      · exact hmem2

theorem foldTerm_ctx (L : List Nat) (s : ProcessManager) :
    (L.foldl (fun s pid => (terminateProcess s pid).1) s).ctxCanceled =
      s.ctxCanceled := by
  induction L generalizing s with
  | nil => rfl
  | cons p rest ih =>
      rw [List.foldl_cons, ih, terminateProcess_ctx]

theorem closeManager_empty (pm : ProcessManager) :
    (closeManager pm).processes = [] := by
  unfold closeManager killAllProcesses
  apply foldTerm_empty
  intro mp hm
  simp only at hm
  exact List.mem_map.mpr ⟨mp, hm, rfl⟩

/-- C1 counterexample: on a supervisor managing one process, `Close()`
    empties the registry, yet a subsequent `StartProcess` with a live
    caller context and a successful spawn SUCCEEDS and registers a new
    process — `start` does not fail after shutdown, refuting the claim. -/
theorem start_after_close_succeeds :
    processCount (closeManager ⟨[⟨11, some 1⟩], false⟩) = 0 ∧
    (startProcess (closeManager ⟨[⟨11, some 1⟩], false⟩) false false 42
      (some 2)).2 = .ok 42 ∧
    processCount (startProcess (closeManager ⟨[⟨11, some 1⟩], false⟩) false
      false 42 (some 2)).1 = 1 :=
  ⟨rfl, rfl, rfl⟩

/-- C1 (amended): after `Close()` the supervisor's context is canceled and
    the registry is empty (every snapshot pid was terminated and reaped),
    but a subsequent `StartProcess` does NOT necessarily fail: it consults
    only the caller-supplied context, so it returns successfully exactly
    when that context is live and the spawn succeeds, and then it registers
    the new process in the closed manager's registry. -/
theorem close_empties_registry_start_unchecked (pm : ProcessManager)
    (callerCtxCanceled spawnFails : Bool) (pid : Nat)
    (behavior : Option Nat) :
    processCount (closeManager pm) = 0 ∧
    (closeManager pm).ctxCanceled = true ∧
    ((startProcess (closeManager pm) callerCtxCanceled spawnFails pid
        behavior).2 = .ok pid ↔
      callerCtxCanceled = false ∧ spawnFails = false) ∧
    (callerCtxCanceled = false → spawnFails = false →
      findProcess (startProcess (closeManager pm) callerCtxCanceled
        spawnFails pid behavior).1 pid = some ⟨pid, behavior⟩) := by
  refine ⟨?_, ?_, ?_, ?_⟩
  · unfold processCount
    rw [closeManager_empty]
    rfl
  · unfold closeManager killAllProcesses
    rw [foldTerm_ctx]
  · unfold startProcess
    rcases callerCtxCanceled with - | - <;> rcases spawnFails with - | - <;>
      simp
  · intro h1 h2
    subst h1
    subst h2
    unfold startProcess findProcess
    simp

/-- Witness for C1's amended theorem on the one-process supervisor, with a
    live caller context and successful spawn. -/
theorem close_empties_registry_start_unchecked_witness :
    processCount (closeManager ⟨[⟨11, some 1⟩], false⟩) = 0 ∧
    (closeManager ⟨[⟨11, some 1⟩], false⟩).ctxCanceled = true ∧
    findProcess (startProcess (closeManager ⟨[⟨11, some 1⟩], false⟩) false
      false 42 (some 2)).1 42 = some ⟨42, some 2⟩ :=
  ⟨(close_empties_registry_start_unchecked ⟨[⟨11, some 1⟩], false⟩ false
      false 42 (some 2)).1,
    (close_empties_registry_start_unchecked ⟨[⟨11, some 1⟩], false⟩ false
      false 42 (some 2)).2.1,
    (close_empties_registry_start_unchecked ⟨[⟨11, some 1⟩], false⟩ false
      false 42 (some 2)).2.2.2 rfl rfl⟩

/-- C3: for every registered pid, `TerminateProcess` returns success both
    when the process exits cleanly after the graceful signal and when it
    must be force-killed, and the process is unregistered within the
    5-second grace period plus epsilon: a process honoring SIGTERM exits
    within the grace period and is reaped `eps` later; any other process is
    SIGKILLed when the grace period expires and reaped `eps` after that. -/
theorem terminate_unregisters_within_grace (pm : ProcessManager) (pid : Nat)
    (mp : ManagedProcess) (eps : Nat)
    (hfind : findProcess pm pid = some mp) :
    (terminateProcess pm pid).2 = .ok () ∧
    findProcess (terminateProcess pm pid).1 pid = none ∧
    terminateRemovalTime mp eps ≤ gracePeriodMs + eps := by
  refine ⟨?_, ?_, ?_⟩
  · unfold terminateProcess
    rw [hfind]
  · unfold findProcess
    rw [terminateProcess_fst]
    apply List.find?_eq_none.mpr
    intro x hx
    have := (List.mem_filter.mp hx).2
    simpa using this
  · unfold terminateRemovalTime
    cases mp.exitAfterTerm with
    | none => exact le_refl _
    | some e =>
        simp only
        split <;> omega

/-- Witness for C3: terminating pid 7 (which exits 2 ms after SIGTERM) on a
    two-process supervisor that also holds a SIGTERM-ignoring process. -/
theorem terminate_unregisters_within_grace_witness :
    (terminateProcess ⟨[⟨7, some 2⟩, ⟨8, none⟩], false⟩ 7).2 = .ok () ∧
    findProcess (terminateProcess ⟨[⟨7, some 2⟩, ⟨8, none⟩], false⟩ 7).1 7 =
      none ∧
    terminateRemovalTime ⟨7, some 2⟩ 1 ≤ gracePeriodMs + 1 :=
  terminate_unregisters_within_grace ⟨[⟨7, some 2⟩, ⟨8, none⟩], false⟩ 7
    ⟨7, some 2⟩ 1 rfl

end MovieGo
